import Mathlib

/-
Verification of `src/nqptp-utilities.c` (nqptp): a shallow embedding of its
three components — `open_sockets_at_port`, `debug_print_buffer` and
`get_self_clock_id` — together with theorems settling the specification
claims about them.

Conventions of the embedding:
* C bytes are `Nat` values; where the code stores them in a plain `char`
  (implementation-defined signedness, signed on x86-64 Linux, the usual
  build target of this daemon) the signed reinterpretation is made explicit
  (`signedChar`).
* Machine integers returned by syscalls are `Int` (they are only compared
  with 0 and -1, so no overflow is involved).
* Syscall results are inputs of the model: each address-family entry comes
  with a `SyscallOutcome` record saying what the OS returned for the calls
  made on it.  Side effects on the OS (setting socket options, binding,
  fcntl, the terminating `die`) are recorded as an `Event` trace.
-/

/- ===================== ClockIdentity: get_self_clock_id ==================== -/

/-- The five assignments of `get_self_clock_id` executed when `len == 6`
(`local_clock_id[7] = local_clock_id[5]; [6] = [4]; [5] = [3];
[3] = 0xFF; [4] = 0xFE;`), performed in source order on the 8-byte local
buffer. -/
def doctor_clock_id (buf : List Nat) : List Nat :=
  let b1 := buf.set 7 (buf.getD 5 0)
  let b2 := b1.set 6 (b1.getD 4 0)
  let b3 := b2.set 5 (b2.getD 3 0)
  let b4 := b3.set 3 0xFF
  b4.set 4 0xFE

/-- Byte-level model of `get_self_clock_id` after an interface with hardware
address `addr` (length `len = addr.length`) has been selected: `addr` is
`memcpy`-ed into the 8-byte stack buffer `local_clock_id`, whose remaining
`8 - len` bytes keep their uninitialized contents `junk`; if `len = 6` the
EUI-48→EUI-64 doctoring is applied.  The result is the final contents of the
buffer, which the C code then `memcpy`s verbatim (network byte order) into
the returned `uint64_t`. -/
def get_self_clock_id (addr : List Nat) (junk : List Nat) : List Nat :=
  let buf := addr ++ junk
  if addr.length = 6 then doctor_clock_id buf else buf

/- ============ ClockIdentity: the getifaddrs error check (C8) ============== -/

/-- The check `if ((status = getifaddrs(&ifaddr) == -1)) die("getifaddrs: %s",
gai_strerror(status));` in `get_self_clock_id`, modelled on the return value
`ret` of `getifaddrs`.  Because `==` binds tighter than `=`, `status` receives
the boolean `ret == -1` (1 or 0), and that boolean is what the `if` tests.
Result: `some msg` when the process is terminated by `die` with message
`msg`, `none` when execution continues.  `gaiStrerror` abstracts the
`gai_strerror` message-lookup function. -/
def getifaddrs_check (gaiStrerror : Int → String) (ret : Int) : Option String :=
  let status : Int := if ret = -1 then 1 else 0
  if status ≠ 0 then some ("getifaddrs: " ++ gaiStrerror status) else none

/- ===================== FrameDumper: debug_print_buffer ==================== -/

/-- Uppercase hexadecimal digit for `n < 16` (as `printf` `%X` produces). -/
def hexDigit (n : Nat) : Char :=
  if n < 10 then Char.ofNat (48 + n) else Char.ofNat (55 + n)

/-- Uppercase hexadecimal digits of `n`, most significant first, no leading
zeros (empty for `n = 0`); `fuel` bounds the recursion (8 suffices for any
32-bit value). -/
def hexDigitsAux : Nat → Nat → List Char
  | 0, _ => []
  | fuel + 1, n => if n = 0 then [] else hexDigitsAux fuel (n / 16) ++ [hexDigit (n % 16)]

/-- The full text `printf("%02X", v)` would produce for a non-negative
32-bit value `v`: hexadecimal digits of `v`, zero-padded on the left to a
minimum width of 2. -/
def fmt02X (v : Nat) : List Char :=
  let ds := if v = 0 then ['0'] else hexDigitsAux 8 v
  if ds.length < 2 then '0' :: ds else ds

/-- What `snprintf(obfp, 3, "%02X", buf[obfc])` stores for a byte value
`c < 256` held in a plain `char` on a signed-`char` platform (the default on
x86-64 Linux): the `char` is promoted to `int` (sign-extending values
≥ 0x80), reinterpreted by `%X` as a 32-bit unsigned value, rendered, and
truncated by the `snprintf` size bound to its first 2 characters. -/
def hexPairCore (c : Nat) : List Char :=
  let v : Nat := if c < 128 then c else 0xFFFFFF00 + c
  (fmt02X v).take 2

/-- The two characters `debug_print_buffer` emits for one byte of the input
buffer (the byte reduced mod 256, since a `char` holds 8 bits). -/
def hexPair (b : Nat) : List Char := hexPairCore (b % 256)

/-- Separator emitted after the byte at (0-based) index `i` when it is not
the last byte: `" || "` after every 32nd byte, `" | "` after every 16th,
a single space after every 4th, nothing otherwise — the
`obfc % 32 == 31 / % 16 == 15 / % 4 == 3` cascade of the source. -/
def sepAfter (i : Nat) : List Char :=
  if i % 32 = 31 then [' ', '|', '|', ' ']
  else if i % 16 = 15 then [' ', '|', ' ']
  else if i % 4 = 3 then [' ']
  else []

/-- The formatting loop of `debug_print_buffer`, starting at byte index `i`:
each byte is rendered by `hexPair`, followed — when it is not the final byte
(`obfc != buf_len - 1`) — by `sepAfter`. -/
def formatLoop (i : Nat) : List Nat → List Char
  | [] => []
  | [b] => hexPair b
  | b :: rest => hexPair b ++ sepAfter i ++ formatLoop (i + 1) rest

/-- The complete text `debug_print_buffer` builds in the transient buffer
(`obf`), excluding the terminating NUL. -/
def formatBuffer (buf : List Nat) : List Char := formatLoop 0 buf

/-- The value of the plain `char` holding byte `b`: on a signed-`char`
platform values ≥ 0x80 are negative. -/
def signedChar (b : Nat) : Int :=
  if b % 256 < 128 then (b % 256 : Nat) else (b % 256 : Nat) - 256

/-- The tag chosen by the `switch (buf[0])` of `debug_print_buffer`, on the
(promoted) value `c` of the first byte. -/
def msgTag (c : Int) : String :=
  if c = 0x10 then "SYNC"
  else if c = 0x18 then "FLUP"
  else if c = 0x19 then "DRSP"
  else if c = 0x1B then "ANNC"
  else if c = 0x1C then "SGNL"
  else "XXXX"

/-- The severity the log line is emitted at: the caller-supplied `level` for
the five recognized message types, the fixed level 1 for the `default:`
branch. -/
def msgLevel (level : Int) (c : Int) : Int :=
  if c = 0x10 ∨ c = 0x18 ∨ c = 0x19 ∨ c = 0x1B ∨ c = 0x1C then level else 1

/-- One line handed to the logging sink: severity, message-type tag, and the
formatted hex text. -/
structure LogLine where
  level : Int
  tag : String
  text : List Char
deriving DecidableEq

/-- `debug_print_buffer(level, buf, buf_len)`: `allocOk` says whether the
`malloc(buf_len * 4 + 1)` for the transient format buffer succeeded.  On
success the function logs exactly one line (`some`); on allocation failure
the whole body is skipped and nothing is logged (`none`).  The function
always returns normally to its caller.  (`buf.headD 0`: the `switch` reads
`buf[0]`; for an empty buffer the C code would read past the buffer, a case
no claim exercises.) -/
def debug_print_buffer (level : Int) (buf : List Nat) (allocOk : Bool) : Option LogLine :=
  if allocOk then
    let c := signedChar (buf.headD 0)
    some ⟨msgLevel level c, msgTag c, formatBuffer buf⟩
  else none

/- ==================== SocketOpener: open_sockets_at_port ================== -/

/-- Address family of one `addrinfo` entry returned by `getaddrinfo`
(`AF_UNSPEC`/`SOCK_DGRAM`/`AI_PASSIVE` yields one entry per available
family). -/
inductive Family where
  | inet
  | inet6
deriving DecidableEq

/-- One resolved `addrinfo` entry. -/
structure AddrEntry where
  family : Family
deriving DecidableEq

/-- What the OS returns for the system calls `open_sockets_at_port` makes on
one entry: the descriptor from `socket` (-1 on failure) and the return
values of `setsockopt(IPV6_V6ONLY)`, `bind`, and
`setsockopt(SO_TIMESTAMPING)` (0 on success). -/
structure SyscallOutcome where
  fd : Int
  v6only_ret : Int
  bind_ret : Int
  tstamp_ret : Int
deriving DecidableEq

/-- One entry of the bundle: `{ number = descriptor, port }`, as in
`sockets_open_stuff->sockets[...]`. -/
structure SocketRecord where
  number : Int
  port : Nat
deriving DecidableEq

/-- `sockets_open_bundle`: the backing array (modelled as a total map from
index to record; the C capacity bound is not exercised by any claim) and the
`sockets_open` count of entries in use. -/
structure sockets_open_bundle where
  sockets : Nat → SocketRecord
  sockets_open : Nat

/-- Observable actions of `open_sockets_at_port`, in program order. -/
inductive Event where
  | setV6Only (fd : Int) (value : Int)
  | bindCall (fd : Int) (port : Nat)
  | setTimestamping (fd : Int)
  | setNonblock (fd : Int)
  | append (r : SocketRecord)
  | die (fam : Family) (port : Nat)
deriving DecidableEq

/-- Value of `ret` after the `IPV6_V6ONLY` step: `ret` starts at 0 and the
source does `ret |= setsockopt(fd, IPPROTO_IPV6, IPV6_V6ONLY, &yes, ...)`
(with `yes = 1`) for `AF_INET6` entries only. -/
def entryRet1 (e : AddrEntry) (os : SyscallOutcome) : Int :=
  if e.family = Family.inet6 then Int.lor 0 os.v6only_ret else 0

/-- Value of `ret` after the `bind` step: `if (!ret) ret = bind(...)`. -/
def entryRet2 (e : AddrEntry) (os : SyscallOutcome) : Int :=
  if entryRet1 e os = 0 then os.bind_ret else entryRet1 e os

/-- Value of `ret` after the `SO_TIMESTAMPING` step:
`if (ret == 0) ret = setsockopt(...)`; this is the value the final
`if (ret)` tests. -/
def entryRet (e : AddrEntry) (os : SyscallOutcome) : Int :=
  if entryRet2 e os = 0 then os.tstamp_ret else entryRet2 e os

/-- The system calls made on one entry once its socket has been created, in
source order: `IPV6_V6ONLY` (AF_INET6 only, with value 1), `bind` (only if
`ret` is still 0), `SO_TIMESTAMPING` (only if `ret` is still 0), and the
unconditional `fcntl(fd, F_SETFL, flags | O_NONBLOCK)` (whose result the
source does not check). -/
def entryEvs (port : Nat) (e : AddrEntry) (os : SyscallOutcome) : List Event :=
  (if e.family = Family.inet6 then [Event.setV6Only os.fd 1] else []) ++
  (if entryRet1 e os = 0 then [Event.bindCall os.fd port] else []) ++
  (if entryRet2 e os = 0 then [Event.setTimestamping os.fd] else []) ++
  [Event.setNonblock os.fd]

/-- How one loop iteration of `open_sockets_at_port` ends. -/
inductive EntryResult where
  | skipped
  | died (fam : Family)
  | opened (r : SocketRecord)
deriving DecidableEq

/-- One iteration of the `for (p = info; p; p = p->ai_next)` loop of
`open_sockets_at_port`: if `socket` failed (`fd == -1`) the entry is skipped
with no further action; otherwise, if the accumulated `ret` is non-zero the
process is terminated by `die(...)` naming the address family and the port;
otherwise the record `{fd, port}` is appended. -/
def processEntry (port : Nat) (e : AddrEntry) (os : SyscallOutcome) : EntryResult × List Event :=
  if os.fd = -1 then (EntryResult.skipped, [])
  else if entryRet e os = 0 then
    (EntryResult.opened ⟨os.fd, port⟩, entryEvs port e os ++ [Event.append ⟨os.fd, port⟩])
  else
    (EntryResult.died e.family, entryEvs port e os ++ [Event.die e.family port])

/-- Store a record at index `sockets_open` and increment the count —
`sockets[sockets_open].number = fd; sockets[sockets_open].port = port;
sockets_open++;`. -/
def appendRecord (b : sockets_open_bundle) (r : SocketRecord) : sockets_open_bundle :=
  ⟨fun i => if i = b.sockets_open then r else b.sockets i, b.sockets_open + 1⟩

/-- Final state of a run of `open_sockets_at_port`: normal completion, or
termination by `die` (which never returns; the bundle argument records its
contents at that moment). -/
inductive RunResult where
  | ok (b : sockets_open_bundle)
  | died (fam : Family) (port : Nat) (b : sockets_open_bundle)

/-- `open_sockets_at_port(port, sockets_open_stuff)` over the resolved entry
list, each entry paired with the outcomes of its system calls; returns the
run result together with the full event trace. -/
def open_sockets_at_port (port : Nat) :
    List (AddrEntry × SyscallOutcome) → sockets_open_bundle → RunResult × List Event
  | [], b => (RunResult.ok b, [])
  | (e, os) :: rest, b =>
    match (processEntry port e os).1 with
    | EntryResult.skipped =>
        ((open_sockets_at_port port rest b).1,
          (processEntry port e os).2 ++ (open_sockets_at_port port rest b).2)
    | EntryResult.died fam =>
        (RunResult.died fam port b, (processEntry port e os).2)
    | EntryResult.opened r =>
        ((open_sockets_at_port port rest (appendRecord b r)).1,
          (processEntry port e os).2 ++ (open_sockets_at_port port rest (appendRecord b r)).2)

/-- The bundle in which a run ended. -/
def finalBundle : RunResult → sockets_open_bundle
  | RunResult.ok b => b
  | RunResult.died _ _ b => b

/-- Number of records appended during a run, read off its event trace. -/
def appendCount (evs : List Event) : Nat :=
  evs.countP fun ev => match ev with
    | Event.append _ => true
    | _ => false

/-- An empty bundle, used by concrete instantiations below. -/
def bundle0 : sockets_open_bundle := ⟨fun _ => ⟨0, 0⟩, 0⟩

/-- A bundle already holding one socket record, as after a first call of
`open_sockets_at_port` for port 319. -/
def bundle1 : sockets_open_bundle := ⟨fun _ => ⟨7, 319⟩, 1⟩


/- ============================ Claim theorems ============================== -/

/- sanity checks of the embedding on concrete inputs -/

example : formatBuffer [0x10, 0x00, 0x00, 0x00] = ['1', '0', '0', '0', '0', '0', '0', '0'] := by
  decide

example :
    formatBuffer [0x10, 0x00, 0x00, 0x00, 0x01] =
      ['1', '0', '0', '0', '0', '0', '0', '0', ' ', '0', '1'] := by
  decide

example : hexPair 0x7F = ['7', 'F'] := by decide

example :
    (open_sockets_at_port 319 [(⟨Family.inet6⟩, ⟨5, 0, 0, 0⟩)] bundle0).2 =
      [Event.setV6Only 5 1, Event.bindCall 5 319, Event.setTimestamping 5,
       Event.setNonblock 5, Event.append ⟨5, 319⟩] := by
  decide

example :
    (open_sockets_at_port 319 [(⟨Family.inet⟩, ⟨4, 0, -1, 0⟩)] bundle0).2 =
      [Event.bindCall 4 319, Event.setNonblock 4, Event.die Family.inet 319] := by
  decide

/-- C1: `get_self_clock_id` applies the IEEE EUI-48→EUI-64 extension: a
6-byte hardware address `[b0,b1,b2,b3,b4,b5]` (whatever uninitialized bytes
`j0, j1` follow it in the stack buffer) becomes
`[b0,b1,b2,0xFF,0xFE,b3,b4,b5]`, and an 8-byte address is returned
unchanged, byte for byte. -/
theorem get_self_clock_id_eui_extension :
    (∀ b0 b1 b2 b3 b4 b5 j0 j1 : Nat,
      get_self_clock_id [b0, b1, b2, b3, b4, b5] [j0, j1] =
        [b0, b1, b2, 0xFF, 0xFE, b3, b4, b5]) ∧
    (∀ a0 a1 a2 a3 a4 a5 a6 a7 : Nat,
      get_self_clock_id [a0, a1, a2, a3, a4, a5, a6, a7] [] =
        [a0, a1, a2, a3, a4, a5, a6, a7]) := by
  constructor <;> intros <;> rfl

/-- C8: the enumeration check of `get_self_clock_id` terminates the process
(with a message) exactly when `getifaddrs` reports failure by returning -1;
on a success return (0) execution continues.  (Despite the operator-
precedence slip, `status = (ret == -1)` is 1 precisely on failure, so
detection is correct — only the value handed to `gai_strerror` is the
boolean rather than an error code.) -/
theorem getifaddrs_check_fatal_iff_failure (gaiStrerror : Int → String) (ret : Int) :
    (getifaddrs_check gaiStrerror ret).isSome = true ↔ ret = -1 := by
  unfold getifaddrs_check
  by_cases h : ret = -1 <;> simp [h]

/-- C7: on allocation failure `debug_print_buffer` produces no log output,
and on allocation success it produces exactly one log line; in both cases it
returns normally (it is a total function of its inputs) and signals nothing
to the caller. -/
theorem debug_print_buffer_alloc_failure_silent (level : Int) (buf : List Nat) :
    debug_print_buffer level buf false = none ∧
      ∃ line, debug_print_buffer level buf true = some line := by
  exact ⟨rfl, ⟨_, rfl⟩⟩

/-- C2 (failing input): on a signed-`char` platform the formatter renders
the byte 0xAA of the buffer `[0x10, 0xAA]` as `FF` — the first two
characters of `%02X` applied to the sign-extended value 0xFFFFFFAA, cut off
by the `snprintf` bound — so the formatted text is `10FF`, not the `10AA`
(two hex digits of each byte's value) that the claim requires. -/
theorem formatBuffer_high_byte_mangled :
    formatBuffer [0x10, 0xAA] = ['1', '0', 'F', 'F'] ∧
      formatBuffer [0x10, 0xAA] ≠ ['1', '0', 'A', 'A'] := by
  constructor <;> decide

/-- `0 | x = x`: the value of `ret |= setsockopt(...)` when `ret` was 0. -/
lemma int_lor_zero (x : Int) : Int.lor 0 x = x := by
  cases x with
  | ofNat n => simp [Int.lor]
  | negSucc n => simp [Int.lor, Nat.ldiff]

/-- C6: on the success path, `debug_print_buffer` tags the line from the
first byte of the buffer — 0x10→"SYNC", 0x18→"FLUP", 0x19→"DRSP",
0x1B→"ANNC", 0x1C→"SGNL", logged at the caller-supplied level — and for any
other first-byte value it logs the formatted text tagged "XXXX" at the
fixed severity 1, whatever `level` was passed. -/
theorem debug_print_buffer_tag_selection (level : Int) (b : Nat) (rest : List Nat)
    (hb : b < 256) :
    debug_print_buffer level (b :: rest) true =
      some ⟨(if b = 0x10 ∨ b = 0x18 ∨ b = 0x19 ∨ b = 0x1B ∨ b = 0x1C then level else 1),
            (if b = 0x10 then "SYNC"
             else if b = 0x18 then "FLUP"
             else if b = 0x19 then "DRSP"
             else if b = 0x1B then "ANNC"
             else if b = 0x1C then "SGNL"
             else "XXXX"),
            formatBuffer (b :: rest)⟩ := by
  by_cases h10 : b = 0x10
  · subst h10; simp [debug_print_buffer, signedChar, msgTag, msgLevel]
  by_cases h18 : b = 0x18
  · subst h18; simp [debug_print_buffer, signedChar, msgTag, msgLevel]
  by_cases h19 : b = 0x19
  · subst h19; simp [debug_print_buffer, signedChar, msgTag, msgLevel]
  by_cases h1B : b = 0x1B
  · subst h1B; simp [debug_print_buffer, signedChar, msgTag, msgLevel]
  by_cases h1C : b = 0x1C
  · subst h1C; simp [debug_print_buffer, signedChar, msgTag, msgLevel]
  have hm : b % 256 = b := Nat.mod_eq_of_lt hb
  have hsc : signedChar b = (b : Int) ∨ signedChar b = (b : Int) - 256 := by
    unfold signedChar
    rw [hm]
    by_cases hlt : b < 128
    · exact Or.inl (if_pos hlt)
    · exact Or.inr (if_neg hlt)
  have t16 : signedChar b ≠ 0x10 := by rcases hsc with h | h <;> omega
  have t24 : signedChar b ≠ 0x18 := by rcases hsc with h | h <;> omega
  have t25 : signedChar b ≠ 0x19 := by rcases hsc with h | h <;> omega
  have t27 : signedChar b ≠ 0x1B := by rcases hsc with h | h <;> omega
  have t28 : signedChar b ≠ 0x1C := by rcases hsc with h | h <;> omega
  simp [debug_print_buffer, msgTag, msgLevel, h10, h18, h19, h1B, h1C, t16, t24, t25, t27, t28]

/-- Witness for C6: a buffer starting 0x1B is tagged "ANNC" at the caller's
level (here 7). -/
theorem debug_print_buffer_tag_selection_witness :
    (0x1B : Nat) < 256 ∧
      debug_print_buffer 7 [0x1B, 0, 0] true = some ⟨7, "ANNC", formatBuffer [0x1B, 0, 0]⟩ :=
  ⟨by decide, debug_print_buffer_tag_selection 7 0x1B [0, 0] (by decide)⟩

set_option maxRecDepth 8192 in
/-- Each byte is rendered as exactly two characters: for values < 0x80 its
two hex digits, for values ≥ 0x80 the first two characters of the
sign-extended rendering — either way the `snprintf` bound makes the length
2. -/
lemma hexPairCore_length : ∀ c < 256, (hexPairCore c).length = 2 := by decide

lemma hexPair_length (b : Nat) : (hexPair b).length = 2 :=
  hexPairCore_length (b % 256) (Nat.mod_lt b (by norm_num))

lemma sepAfter_length_le (i : Nat) : (sepAfter i).length ≤ 4 := by
  unfold sepAfter
  split_ifs <;> simp

lemma sepAfter_eq_nil (i : Nat) (h : i % 4 ≠ 3) : sepAfter i = [] := by
  have h32 : i % 32 ≠ 31 := by omega
  have h16 : i % 16 ≠ 15 := by omega
  unfold sepAfter
  rw [if_neg h32, if_neg h16, if_neg h]

/-- Emitted-length invariant of the formatting loop: a separator (at most 4
characters) only follows a byte whose index is 3 mod 4, so from index `i`
the loop emits at most `3·(number of bytes) + i % 4` characters. -/
lemma formatLoop_length (buf : List Nat) :
    ∀ i, (formatLoop i buf).length ≤ 3 * buf.length + i % 4 := by
  induction buf with
  | nil => intro i; simp [formatLoop]
  | cons b rest ih =>
    intro i
    cases rest with
    | nil =>
      simp only [formatLoop, hexPair_length, List.length_cons, List.length_nil]
      omega
    | cons c rest' =>
      have hrec := ih (i + 1)
      by_cases h4 : i % 4 = 3
      · have hs := sepAfter_length_le i
        simp only [formatLoop, List.length_append, hexPair_length, List.length_cons] at hrec ⊢
        omega
      · have hs : sepAfter i = [] := sepAfter_eq_nil i h4
        simp only [formatLoop, List.length_append, hexPair_length, hs, List.length_nil,
          List.length_cons] at hrec ⊢
        omega

/-- C10: for a buffer of `n` bytes the formatter emits at most `4·n + 1`
characters in total — two hex characters per byte, all group separators, and
the terminating NUL — so every store lands inside the transient buffer
allocated with `malloc(buf_len * 4 + 1)`. -/
theorem formatBuffer_within_allocation (buf : List Nat) :
    (formatBuffer buf).length + 1 ≤ 4 * buf.length + 1 := by
  have h := formatLoop_length buf 0
  unfold formatBuffer
  omega

/-- A loop iteration whose `socket` call failed does nothing at all. -/
lemma processEntry_skip (port : Nat) (e : AddrEntry) (os : SyscallOutcome)
    (h : os.fd = -1) : processEntry port e os = (EntryResult.skipped, []) := by
  unfold processEntry
  rw [if_pos h]

/-- A loop iteration with a created socket and all-successful calls appends
the record `{fd, port}`. -/
lemma processEntry_opened (port : Nat) (e : AddrEntry) (os : SyscallOutcome)
    (hfd : os.fd ≠ -1) (hr : entryRet e os = 0) :
    processEntry port e os =
      (EntryResult.opened ⟨os.fd, port⟩,
        entryEvs port e os ++ [Event.append ⟨os.fd, port⟩]) := by
  unfold processEntry
  rw [if_neg hfd, if_pos hr]

/-- A loop iteration with a created socket and a failed call terminates via
`die`, naming the entry's address family and the port. -/
lemma processEntry_died (port : Nat) (e : AddrEntry) (os : SyscallOutcome)
    (hfd : os.fd ≠ -1) (hr : entryRet e os ≠ 0) :
    processEntry port e os =
      (EntryResult.died e.family, entryEvs port e os ++ [Event.die e.family port]) := by
  unfold processEntry
  rw [if_neg hfd, if_neg hr]

/-- If any of the three checked calls on a created socket fails —
`IPV6_V6ONLY` (AF_INET6 only), `bind`, or `SO_TIMESTAMPING` — the final
`ret` is non-zero. -/
lemma entryRet_ne_zero (e : AddrEntry) (os : SyscallOutcome)
    (hfail : (e.family = Family.inet6 ∧ os.v6only_ret ≠ 0) ∨
      os.bind_ret ≠ 0 ∨ os.tstamp_ret ≠ 0) :
    entryRet e os ≠ 0 := by
  unfold entryRet entryRet2 entryRet1
  rcases hfail with ⟨h6, hv⟩ | hb | ht <;>
    simp only [int_lor_zero] <;> split_ifs <;> simp_all

/-- All three checked calls succeeding gives `ret = 0`. -/
lemma entryRet_zero (e : AddrEntry) (os : SyscallOutcome)
    (hv : os.v6only_ret = 0) (hb : os.bind_ret = 0) (ht : os.tstamp_ret = 0) :
    entryRet e os = 0 := by
  unfold entryRet entryRet2 entryRet1
  simp [hv, hb, ht, int_lor_zero]

/-- The calls made on a created socket never include an `append` event. -/
lemma appendCount_entryEvs (port : Nat) (e : AddrEntry) (os : SyscallOutcome) :
    appendCount (entryEvs port e os) = 0 := by
  unfold entryEvs appendCount
  split_ifs <;> rfl

/-- The trace of a run starting with an entry begins with that entry's own
events. -/
lemma run_evs_prefixed (port : Nat) (e : AddrEntry) (os : SyscallOutcome)
    (rest : List (AddrEntry × SyscallOutcome)) (b : sockets_open_bundle) :
    ∃ tl, (open_sockets_at_port port ((e, os) :: rest) b).2 =
      (processEntry port e os).2 ++ tl := by
  simp only [open_sockets_at_port]
  split
  · exact ⟨_, rfl⟩
  · exact ⟨[], (List.append_nil _).symm⟩
  · exact ⟨_, rfl⟩

/-- C3 counterexample: for an IPv6 entry whose socket was created, the run
never sets `IPV6_V6ONLY` to 0 (the value that would disable the suppression
of v4 traffic on the v6 socket); the only `IPV6_V6ONLY` call sets it to 1,
enabling that suppression. -/
theorem open_sockets_v6only_disable_counterexample :
    Event.setV6Only 5 0 ∉
        (open_sockets_at_port 319 [(⟨Family.inet6⟩, ⟨5, 0, 0, 0⟩)] bundle0).2 ∧
      Event.setV6Only 5 1 ∈
        (open_sockets_at_port 319 [(⟨Family.inet6⟩, ⟨5, 0, 0, 0⟩)] bundle0).2 := by
  decide

/-- C3 amended: for every IPv6 entry whose socket was created,
`open_sockets_at_port` makes `setsockopt(fd, IPPROTO_IPV6, IPV6_V6ONLY, 1)`
its very first action on that socket — enabling v6-only mode (suppressing
v4-on-v6 delivery, so each stack is served by its own socket) before the
socket is bound. -/
theorem open_sockets_v6only_set_first (port : Nat) (e : AddrEntry) (os : SyscallOutcome)
    (rest : List (AddrEntry × SyscallOutcome)) (b : sockets_open_bundle)
    (h6 : e.family = Family.inet6) (hfd : os.fd ≠ -1) :
    ∃ tl, (open_sockets_at_port port ((e, os) :: rest) b).2 =
      Event.setV6Only os.fd 1 :: tl := by
  obtain ⟨tl2, h2⟩ := run_evs_prefixed port e os rest b
  have hevs : entryEvs port e os =
      Event.setV6Only os.fd 1 ::
        (((if entryRet1 e os = 0 then [Event.bindCall os.fd port] else []) ++
          (if entryRet2 e os = 0 then [Event.setTimestamping os.fd] else [])) ++
          [Event.setNonblock os.fd]) := by
    unfold entryEvs
    rw [if_pos h6]
    simp [List.append_assoc]
  have hpe : ∃ tl1, (processEntry port e os).2 = Event.setV6Only os.fd 1 :: tl1 := by
    by_cases hr : entryRet e os = 0
    · refine ⟨(((if entryRet1 e os = 0 then [Event.bindCall os.fd port] else []) ++
          (if entryRet2 e os = 0 then [Event.setTimestamping os.fd] else [])) ++
          [Event.setNonblock os.fd]) ++ [Event.append ⟨os.fd, port⟩], ?_⟩
      rw [processEntry_opened port e os hfd hr, hevs]
      rfl
    · refine ⟨(((if entryRet1 e os = 0 then [Event.bindCall os.fd port] else []) ++
          (if entryRet2 e os = 0 then [Event.setTimestamping os.fd] else [])) ++
          [Event.setNonblock os.fd]) ++ [Event.die e.family port], ?_⟩
      rw [processEntry_died port e os hfd hr, hevs]
      rfl
  obtain ⟨tl1, h1⟩ := hpe
  exact ⟨tl1 ++ tl2, by rw [h2, h1]; rfl⟩

/-- Witness for C3 (amended): a concrete IPv6 entry with a created socket. -/
theorem open_sockets_v6only_set_first_witness :
    (⟨Family.inet6⟩ : AddrEntry).family = Family.inet6 ∧ ((5 : Int) ≠ -1) ∧
      ∃ tl, (open_sockets_at_port 319 [(⟨Family.inet6⟩, ⟨5, 0, 0, 0⟩)] bundle0).2 =
        Event.setV6Only 5 1 :: tl :=
  ⟨rfl, by decide,
    open_sockets_v6only_set_first 319 ⟨Family.inet6⟩ ⟨5, 0, 0, 0⟩ [] bundle0 rfl (by decide)⟩

/-- C5: per-family socket-creation failure (`fd == -1`) is tolerated
silently — the entry contributes nothing, no event at all, and the loop
continues with the next family exactly as if the entry were absent; but once
a socket has been created (`fd != -1`), failure of the dual-stack option
(IPv6 entries), of `bind`, or of the timestamping option terminates the
process via `die`, whose message names the entry's address family and the
port, and nothing is appended for that entry. -/
theorem open_sockets_failure_policy (port : Nat) (e : AddrEntry)
    (fd v6r br tr : Int)
    (rest : List (AddrEntry × SyscallOutcome)) (b : sockets_open_bundle) :
    (open_sockets_at_port port ((e, ⟨-1, v6r, br, tr⟩) :: rest) b =
        open_sockets_at_port port rest b) ∧
      (fd ≠ -1 →
        ((e.family = Family.inet6 ∧ v6r ≠ 0) ∨ br ≠ 0 ∨ tr ≠ 0) →
        (open_sockets_at_port port ((e, ⟨fd, v6r, br, tr⟩) :: rest) b).1 =
            RunResult.died e.family port b ∧
          Event.die e.family port ∈ (open_sockets_at_port port ((e, ⟨fd, v6r, br, tr⟩) :: rest) b).2 ∧
          appendCount (open_sockets_at_port port ((e, ⟨fd, v6r, br, tr⟩) :: rest) b).2 = 0) := by
  constructor
  · have hskip : processEntry port e ⟨-1, v6r, br, tr⟩ = (EntryResult.skipped, []) :=
      processEntry_skip port e ⟨-1, v6r, br, tr⟩ rfl
    simp only [open_sockets_at_port, hskip]
    simp
  · intro hfd hfail
    have hret : entryRet e ⟨fd, v6r, br, tr⟩ ≠ 0 := entryRet_ne_zero e ⟨fd, v6r, br, tr⟩ hfail
    have hdie : processEntry port e ⟨fd, v6r, br, tr⟩ =
        (EntryResult.died e.family,
          entryEvs port e ⟨fd, v6r, br, tr⟩ ++ [Event.die e.family port]) :=
      processEntry_died port e ⟨fd, v6r, br, tr⟩ hfd hret
    simp only [open_sockets_at_port, hdie]
    refine ⟨by trivial, ?_, ?_⟩
    · simp
    · unfold appendCount at *
      rw [List.countP_append]
      have h0 := appendCount_entryEvs port e ⟨fd, v6r, br, tr⟩
      unfold appendCount at h0
      rw [h0]
      rfl

/-- Witness for C5: a concrete IPv4 entry whose `bind` fails. -/
theorem open_sockets_failure_policy_witness :
    ((5 : Int) ≠ -1) ∧
      (((⟨Family.inet⟩ : AddrEntry).family = Family.inet6 ∧ (0 : Int) ≠ 0) ∨
        (-1 : Int) ≠ 0 ∨ (0 : Int) ≠ 0) ∧
      ((open_sockets_at_port 319 [(⟨Family.inet⟩, ⟨5, 0, -1, 0⟩)] bundle0).1 =
          RunResult.died Family.inet 319 bundle0 ∧
        Event.die Family.inet 319 ∈
          (open_sockets_at_port 319 [(⟨Family.inet⟩, ⟨5, 0, -1, 0⟩)] bundle0).2 ∧
        appendCount (open_sockets_at_port 319 [(⟨Family.inet⟩, ⟨5, 0, -1, 0⟩)] bundle0).2 = 0) :=
  ⟨by decide, Or.inr (Or.inl (by decide)),
    (open_sockets_failure_policy 319 ⟨Family.inet⟩ 5 0 (-1) 0 [] bundle0).2
      (by decide) (Or.inr (Or.inl (by decide)))⟩

lemma appendCount_append (l1 l2 : List Event) :
    appendCount (l1 ++ l2) = appendCount l1 + appendCount l2 := by
  simp [appendCount, List.countP_append]

/-- Invariant of the whole loop: existing bundle entries are never touched,
the count never decreases, and it grows by exactly the number of `append`
events in the trace. -/
lemma run_frame (port : Nat) (entries : List (AddrEntry × SyscallOutcome)) :
    ∀ b : sockets_open_bundle,
      (∀ i, i < b.sockets_open →
        (finalBundle (open_sockets_at_port port entries b).1).sockets i = b.sockets i) ∧
      b.sockets_open ≤ (finalBundle (open_sockets_at_port port entries b).1).sockets_open ∧
      (finalBundle (open_sockets_at_port port entries b).1).sockets_open =
        b.sockets_open + appendCount (open_sockets_at_port port entries b).2 := by
  induction entries with
  | nil =>
    intro b
    refine ⟨fun i _ => rfl, le_refl _, ?_⟩
    simp [open_sockets_at_port, finalBundle, appendCount]
  | cons p rest ih =>
    obtain ⟨e, os⟩ := p
    intro b
    by_cases hfd : os.fd = -1
    · have hskip := processEntry_skip port e os hfd
      have hrun : open_sockets_at_port port ((e, os) :: rest) b =
          ((open_sockets_at_port port rest b).1, [] ++ (open_sockets_at_port port rest b).2) := by
        simp only [open_sockets_at_port, hskip]
      have hrun1 : (open_sockets_at_port port ((e, os) :: rest) b).1 =
          (open_sockets_at_port port rest b).1 := by simp [hrun]
      have hrun2 : (open_sockets_at_port port ((e, os) :: rest) b).2 =
          (open_sockets_at_port port rest b).2 := by simp [hrun]
      rw [hrun1, hrun2]
      exact ih b
    · by_cases hr : entryRet e os = 0
      · have hop := processEntry_opened port e os hfd hr
        have hrun : open_sockets_at_port port ((e, os) :: rest) b =
            ((open_sockets_at_port port rest (appendRecord b ⟨os.fd, port⟩)).1,
              (entryEvs port e os ++ [Event.append ⟨os.fd, port⟩]) ++
                (open_sockets_at_port port rest (appendRecord b ⟨os.fd, port⟩)).2) := by
          simp only [open_sockets_at_port, hop]
        have hrun1 : (open_sockets_at_port port ((e, os) :: rest) b).1 =
            (open_sockets_at_port port rest (appendRecord b ⟨os.fd, port⟩)).1 := by simp [hrun]
        have hrun2 : (open_sockets_at_port port ((e, os) :: rest) b).2 =
            (entryEvs port e os ++ [Event.append ⟨os.fd, port⟩]) ++
              (open_sockets_at_port port rest (appendRecord b ⟨os.fd, port⟩)).2 := by simp [hrun]
        rw [hrun1, hrun2]
        obtain ⟨ihf, ihle, ihc⟩ := ih (appendRecord b ⟨os.fd, port⟩)
        have hc1 : appendCount (entryEvs port e os ++ [Event.append ⟨os.fd, port⟩]) = 1 := by
          rw [appendCount_append, appendCount_entryEvs]
          rfl
        have hso : (appendRecord b ⟨os.fd, port⟩).sockets_open = b.sockets_open + 1 := rfl
        refine ⟨?_, ?_, ?_⟩
        · intro i hi
          have hi' : i < (appendRecord b ⟨os.fd, port⟩).sockets_open := Nat.lt_succ_of_lt hi
          rw [ihf i hi']
          show (if i = b.sockets_open then (⟨os.fd, port⟩ : SocketRecord) else b.sockets i) =
            b.sockets i
          rw [if_neg (by omega)]
        · exact le_trans (Nat.le_succ _) ihle
        · rw [appendCount_append, hc1]
          omega
      · have hd := processEntry_died port e os hfd hr
        have hrun : open_sockets_at_port port ((e, os) :: rest) b =
            (RunResult.died e.family port b,
              entryEvs port e os ++ [Event.die e.family port]) := by
          simp only [open_sockets_at_port, hd]
        have hrun1 : (open_sockets_at_port port ((e, os) :: rest) b).1 =
            RunResult.died e.family port b := by simp [hrun]
        have hrun2 : (open_sockets_at_port port ((e, os) :: rest) b).2 =
            entryEvs port e os ++ [Event.die e.family port] := by simp [hrun]
        rw [hrun1, hrun2]
        have hc0 : appendCount (entryEvs port e os ++ [Event.die e.family port]) = 0 := by
          rw [appendCount_append, appendCount_entryEvs]
          rfl
        refine ⟨fun i _ => rfl, le_refl _, ?_⟩
        rw [hc0]
        simp [finalBundle]

/-- C9: `open_sockets_at_port` only appends to the bundle — every record
below the entry count `n` it was given is unchanged when it finishes, the
count never decreases, and the count grows by exactly the number of records
appended (the `append` events) during the call. -/
theorem open_sockets_only_appends (port : Nat)
    (entries : List (AddrEntry × SyscallOutcome)) (b : sockets_open_bundle) :
    (∀ i, i < b.sockets_open →
      (finalBundle (open_sockets_at_port port entries b).1).sockets i = b.sockets i) ∧
    b.sockets_open ≤ (finalBundle (open_sockets_at_port port entries b).1).sockets_open ∧
    (finalBundle (open_sockets_at_port port entries b).1).sockets_open =
      b.sockets_open + appendCount (open_sockets_at_port port entries b).2 :=
  run_frame port entries b

/-- Witness for C9: a pre-populated bundle keeps its first record through a
further call. -/
theorem open_sockets_only_appends_witness :
    0 < bundle1.sockets_open ∧
      (finalBundle
          (open_sockets_at_port 320 [(⟨Family.inet⟩, ⟨3, 0, 0, 0⟩)] bundle1).1).sockets 0 =
        bundle1.sockets 0 :=
  ⟨by decide,
    (open_sockets_only_appends 320 [(⟨Family.inet⟩, ⟨3, 0, 0, 0⟩)] bundle1).1 0 (by decide)⟩

/-- C4 (amended): when every resolved entry's system calls succeed, the call
completes normally, the count grows by exactly the number of resolved
address families, and every record appended by the call carries the given
port and a valid (non-`-1`) descriptor on which the non-blocking `fcntl`
was performed. -/
theorem open_sockets_success (port : Nat) (entries : List (AddrEntry × SyscallOutcome))
    (b : sockets_open_bundle)
    (hok : ∀ p ∈ entries,
      p.2.fd ≠ -1 ∧ p.2.v6only_ret = 0 ∧ p.2.bind_ret = 0 ∧ p.2.tstamp_ret = 0) :
    ∃ b', (open_sockets_at_port port entries b).1 = RunResult.ok b' ∧
      b'.sockets_open = b.sockets_open + entries.length ∧
      ∀ i, b.sockets_open ≤ i → i < b'.sockets_open →
        (b'.sockets i).port = port ∧ (b'.sockets i).number ≠ -1 ∧
          Event.setNonblock ((b'.sockets i).number) ∈
            (open_sockets_at_port port entries b).2 := by
  induction entries generalizing b with
  | nil =>
    refine ⟨b, rfl, by simp [open_sockets_at_port], ?_⟩
    intro i h1 h2
    exact absurd (lt_of_le_of_lt h1 h2) (lt_irrefl _)
  | cons p rest ih =>
    obtain ⟨e, os⟩ := p
    obtain ⟨hfd, hv, hb2, ht⟩ := hok (e, os) (List.mem_cons_self _ _)
    have hok' : ∀ q ∈ rest,
        q.2.fd ≠ -1 ∧ q.2.v6only_ret = 0 ∧ q.2.bind_ret = 0 ∧ q.2.tstamp_ret = 0 :=
      fun q hq => hok q (List.mem_cons_of_mem _ hq)
    have hr : entryRet e os = 0 := entryRet_zero e os hv hb2 ht
    have ho := processEntry_opened port e os hfd hr
    have hrun : open_sockets_at_port port ((e, os) :: rest) b =
        ((open_sockets_at_port port rest (appendRecord b ⟨os.fd, port⟩)).1,
          (entryEvs port e os ++ [Event.append ⟨os.fd, port⟩]) ++
            (open_sockets_at_port port rest (appendRecord b ⟨os.fd, port⟩)).2) := by
      simp only [open_sockets_at_port, ho]
    have hrun1 : (open_sockets_at_port port ((e, os) :: rest) b).1 =
        (open_sockets_at_port port rest (appendRecord b ⟨os.fd, port⟩)).1 := by simp [hrun]
    have hrun2 : (open_sockets_at_port port ((e, os) :: rest) b).2 =
        (entryEvs port e os ++ [Event.append ⟨os.fd, port⟩]) ++
          (open_sockets_at_port port rest (appendRecord b ⟨os.fd, port⟩)).2 := by simp [hrun]
    obtain ⟨b', hok1, hcount, hrec⟩ := ih (appendRecord b ⟨os.fd, port⟩) hok'
    have hfr := (run_frame port rest (appendRecord b ⟨os.fd, port⟩)).1
    have hso : (appendRecord b ⟨os.fd, port⟩).sockets_open = b.sockets_open + 1 := rfl
    refine ⟨b', by rw [hrun1]; exact hok1, ?_, ?_⟩
    · rw [hcount, hso, List.length_cons]
      omega
    · intro i h1 h2
      by_cases hieq : i = b.sockets_open
      · subst hieq
        have hlt : b.sockets_open < (appendRecord b ⟨os.fd, port⟩).sockets_open := by
          rw [hso]; omega
        have heq := hfr _ hlt
        have hfb : finalBundle
            (open_sockets_at_port port rest (appendRecord b ⟨os.fd, port⟩)).1 = b' := by
          rw [hok1]
          rfl
        rw [hfb] at heq
        have hrv : (appendRecord b ⟨os.fd, port⟩).sockets b.sockets_open =
            (⟨os.fd, port⟩ : SocketRecord) := by
          show (if b.sockets_open = b.sockets_open then _ else _) = _
          rw [if_pos rfl]
        rw [heq, hrv]
        refine ⟨rfl, hfd, ?_⟩
        rw [hrun2]
        have hmem : Event.setNonblock os.fd ∈ entryEvs port e os := by
          unfold entryEvs
          simp
        simp [List.mem_append, hmem]
      · have h1' : (appendRecord b ⟨os.fd, port⟩).sockets_open ≤ i := by rw [hso]; omega
        obtain ⟨hp, hn, hm⟩ := hrec i h1' h2
        refine ⟨hp, hn, ?_⟩
        rw [hrun2]
        exact List.mem_append_right _ hm

/-- C4 counterexample: one resolvable address family whose calls all
succeed, appended to a bundle that already holds one record (exactly what
happens on the daemon's second call, for port 320, after port 319) leaves
`sockets_open = 2`, not the number (1) of resolvable address families; the
pre-existing record also keeps its old port 319, not 320. -/
theorem open_sockets_count_counterexample :
    [((⟨Family.inet⟩ : AddrEntry), (⟨3, 0, 0, 0⟩ : SyscallOutcome))].length = 1 ∧
      (finalBundle
          (open_sockets_at_port 320 [(⟨Family.inet⟩, ⟨3, 0, 0, 0⟩)] bundle1).1).sockets_open = 2 ∧
      (2 : Nat) ≠ 1 ∧
      ((finalBundle
          (open_sockets_at_port 320 [(⟨Family.inet⟩, ⟨3, 0, 0, 0⟩)] bundle1).1).sockets 0).port =
        319 := by
  refine ⟨rfl, rfl, by decide, rfl⟩

/-- Witness for C4 (amended): one IPv6 entry, all calls succeeding, starting
from the empty bundle. -/
theorem open_sockets_success_witness :
    (∀ p ∈ [((⟨Family.inet6⟩ : AddrEntry), (⟨4, 0, 0, 0⟩ : SyscallOutcome))],
      p.2.fd ≠ -1 ∧ p.2.v6only_ret = 0 ∧ p.2.bind_ret = 0 ∧ p.2.tstamp_ret = 0) ∧
      ∃ b', (open_sockets_at_port 319 [(⟨Family.inet6⟩, ⟨4, 0, 0, 0⟩)] bundle0).1 =
          RunResult.ok b' ∧
        b'.sockets_open = bundle0.sockets_open +
          [((⟨Family.inet6⟩ : AddrEntry), (⟨4, 0, 0, 0⟩ : SyscallOutcome))].length ∧
        ∀ i, bundle0.sockets_open ≤ i → i < b'.sockets_open →
          (b'.sockets i).port = 319 ∧ (b'.sockets i).number ≠ -1 ∧
            Event.setNonblock ((b'.sockets i).number) ∈
              (open_sockets_at_port 319 [(⟨Family.inet6⟩, ⟨4, 0, 0, 0⟩)] bundle0).2 :=
  ⟨by decide,
    open_sockets_success 319 [(⟨Family.inet6⟩, ⟨4, 0, 0, 0⟩)] bundle0 (by decide)⟩

/-- Witness for C8 at a concrete failing return value. -/
theorem getifaddrs_check_fatal_iff_failure_witness :
    (getifaddrs_check (fun _ => "failure message") (-1)).isSome = true ↔ (-1 : Int) = -1 :=
  getifaddrs_check_fatal_iff_failure (fun _ => "failure message") (-1)
